import Mathlib

/-!
Verification development for the markdown extraction engine of
`src/jina_scraper.py` (class `JinaNBA2KScraper`).

Documents are embedded as `List Char`.  Each Python regular-expression
search is embedded as an explicit left-to-right scan over the character
list that reproduces the match semantics of the concrete pattern used in
the source (all patterns are simple enough that greedy matching with the
few required backtracking cases can be coded directly).  Python `dict`s
(insertion ordered) are embedded as association lists.
-/

set_option autoImplicit false

/-- Python's `\s` character class over ASCII: space, tab, newline,
carriage return, vertical tab, form feed. -/
def pyIsSpace (c : Char) : Bool :=
  c = ' ' || c = '\t' || c = '\n' || c = '\r' || c = Char.ofNat 11 || c = Char.ofNat 12

/-- Characters allowed in the `[^\n\r]` class used by several patterns. -/
def notNL (c : Char) : Bool :=
  c ≠ '\n' && c ≠ '\r'

/-- Value of a digit string (the way Python's `int` reads a `\d+` match). -/
def digitsToNat (l : List Char) : Nat :=
  l.foldl (fun a c => a * 10 + (c.toNat - 48)) 0

/-- Index of the first occurrence of `sub` in `l` (Python `str.find` /
the position where a literal pattern first matches), if any. -/
def firstIdx (sub : List Char) : List Char → Option Nat
  | [] => if List.isPrefixOf sub [] then some 0 else none
  | c :: rest =>
    if List.isPrefixOf sub (c :: rest) then some 0
    else (firstIdx sub rest).map (· + 1)

/-- Python `sub in s` substring test. -/
def containsSub (sub l : List Char) : Bool :=
  (firstIdx sub l).isSome

/-- Generic leftmost-match scan: try the positional matcher `f` at every
suffix, left to right, returning the first success (Python `re.search`). -/
def scanFor {α : Type} (f : List Char → Option α) : List Char → Option α
  | [] => f []
  | c :: rest =>
    match f (c :: rest) with
    | some a => some a
    | none => scanFor f rest

/-- First index at which the positional predicate `p` holds (used for
`re.search(...).start()`). -/
def firstMatchIdx (p : List Char → Bool) : List Char → Option Nat
  | [] => if p [] then some 0 else none
  | c :: rest =>
    if p (c :: rest) then some 0
    else (firstMatchIdx p rest).map (· + 1)

/-- Python `str.replace old new` (all non-overlapping occurrences, left to
right), fuelled by the input length; each step consumes at least one
character, so `l.length` fuel is always enough. -/
def pyReplaceAux (old new : List Char) : Nat → List Char → List Char
  | 0, l => l
  | _f + 1, [] => []
  | f + 1, c :: rest =>
    if old ≠ [] ∧ old.isPrefixOf (c :: rest) then
      new ++ pyReplaceAux old new f (rest.drop (old.length - 1))
    else
      c :: pyReplaceAux old new f rest

/-- Python `str.replace`. -/
def pyReplace (old new l : List Char) : List Char :=
  pyReplaceAux old new l.length l

/-- Python `str.strip()` (ASCII whitespace from both ends). -/
def pyStrip (l : List Char) : List Char :=
  ((l.dropWhile pyIsSpace).reverse.dropWhile pyIsSpace).reverse

/-- Python `re.sub(r'\n+', ' ', s)`: every maximal run of newlines becomes
one space.  Fuelled by the input length. -/
def collapseNewlinesAux : Nat → List Char → List Char
  | 0, l => l
  | _f + 1, [] => []
  | f + 1, c :: rest =>
    if c = '\n' then
      ' ' :: collapseNewlinesAux f (rest.dropWhile (fun d => d = '\n'))
    else
      c :: collapseNewlinesAux f rest

/-- `re.sub(r'\n+', ' ', s)`. -/
def collapseNewlines (l : List Char) : List Char :=
  collapseNewlinesAux l.length l

/-! ### Data model (the dictionaries built by the source) -/

/-- One entry of a `sub_attributes` dictionary
(`{'value': ..., 'raw_value': ...}`). -/
structure SubAttr where
  value : Nat
  raw_value : List Char
  deriving DecidableEq

/-- One entry of the `attributes` dictionary
(`{'rating': ..., 'sub_attributes': ...}`). -/
structure AttrGroup where
  rating : Nat
  sub_attributes : List (List Char × SubAttr)
  deriving DecidableEq

/-- One element of the `individual_badges` list. -/
structure Badge where
  name : List Char
  quality : List Char
  category : List Char
  description : List Char
  deriving DecidableEq

/-- The `badge_info` dictionary built by
`extract_badge_info_from_markdown`. -/
structure BadgeInfo where
  total_badges : Nat
  hof_badges : Nat
  gold_badges : Nat
  silver_badges : Nat
  bronze_badges : Nat
  legendary_badges : Nat
  badge_breakdown : List (List Char × Nat)
  individual_badges : List Badge
  deriving DecidableEq

/-- The `player_data` dictionary built by `parse_player_page`. -/
structure PlayerData where
  name : List Char
  url : List Char
  overall_rating : Option Nat
  badge_info : BadgeInfo
  attributes : List (List Char × AttrGroup)
  player_details : List (List Char × List Char)
  raw_content : List Char
  deriving DecidableEq

/-- Default badge, used only as the `List.getD` fallback in statements. -/
def defaultBadge : Badge :=
  { name := [], quality := [], category := [], description := [] }

/-! ### Badge tier counts (`extract_badge_info_from_markdown`) -/

/-- Positional matcher for `LIT\s*(\d+)`: the literal, optional
whitespace, then at least one digit; yields the digit-run value.  Giving
back whitespace characters cannot produce a digit, so greedy matching
needs no backtracking here. -/
def tryCountAt (lit : List Char) (l : List Char) : Option Nat :=
  if lit.isPrefixOf l then
    let ds := ((l.drop lit.length).dropWhile pyIsSpace).takeWhile Char.isDigit
    if ds = [] then none else some (digitsToNat ds)
  else none

/-- Positional matcher for `LIT(\d+)\)` — used for the
`Category (\d+)` badge-breakdown pattern with `lit = "Category ("`. -/
def tryParenCountAt (lit : List Char) (l : List Char) : Option Nat :=
  if lit.isPrefixOf l then
    let after := l.drop lit.length
    let ds := after.takeWhile Char.isDigit
    if ds = [] then none
    else if (after.drop ds.length).head? = some ')' then some (digitsToNat ds)
    else none
  else none

def legendarySumLit : List Char := "legendary-sum.png)".toList
def hofSumLit : List Char := "hof-sum.png)".toList
def goldSumLit : List Char := "gold-sum.png)".toList
def silverSumLit : List Char := "silver-sum.png)".toList
def bronzeSumLit : List Char := "bronze-sum.png)".toList

/-- The seven badge-breakdown category names searched by the source. -/
def badgeCategories : List (List Char) :=
  ["Outside Scoring".toList, "Inside Scoring".toList, "Playmaking".toList,
   "Defense".toList, "Rebounding".toList, "General Offense".toList,
   "All Around".toList]

/-! ### Individual badges (`extract_individual_badges`) -/

def badgesSectionMarker : List Char := "[NBA 2K25 Badges]".toList
def hotZonesMarker : List Char := "NBA 2K25 Hot Zones".toList
def headingLit : List Char := "#### ".toList
def viewAllLit : List Char := "[View All Badges]".toList
def imageLit : List Char := "![Image".toList

/-- The bounded badge section: from the `[NBA 2K25 Badges]` marker to the
`NBA 2K25 Hot Zones` marker (or document end); `none` when the start
marker is absent (`content.find(...) == -1`). -/
def badgeSectionOf (content : List Char) : Option (List Char) :=
  match firstIdx badgesSectionMarker content with
  | none => none
  | some n =>
    let sect := content.drop n
    some (match firstIdx hotZonesMarker sect with
          | some e => sect.take e
          | none => sect)

/-- The lookahead of the badge-block pattern
`(?=\n\n#### |\n\n\[View All Badges\]|\n\n!\[Image|$)` at a position that
sits on a line boundary (`$` without MULTILINE matches at the end of the
input or just before a final newline). -/
def badgeStop (l : List Char) : Bool :=
  l = [] || l = ['\n'] ||
  List.isPrefixOf ('\n' :: '\n' :: headingLit) l ||
  List.isPrefixOf ('\n' :: '\n' :: viewAllLit) l ||
  List.isPrefixOf ('\n' :: '\n' :: imageLit) l

/-- Lazy extension of the description group `([^\n]+(?:\n[^\n]+)*?)`:
starting from the first description line `acc`, keep appending whole
further lines until the lookahead `badgeStop` succeeds; a blank line (or
any position where neither the lookahead nor another `\n[^\n]+` line is
available) makes the whole badge match fail, exactly as the regex does.
Each step consumes at least two characters, so length fuel suffices. -/
def descExtendAux : Nat → List Char → List Char → Option (List Char × List Char)
  | 0, acc, l => if badgeStop l then some (acc, l) else none
  | f + 1, acc, l =>
    if badgeStop l then some (acc, l)
    else
      match l with
      | '\n' :: rest =>
        let line := rest.takeWhile (fun c => c ≠ '\n')
        if line = [] then none
        else descExtendAux f (acc ++ '\n' :: line) (rest.drop line.length)
      | _ => none

/-- Positional matcher for one badge block
`#### ([^\n]+)\n\n([^\n]+)\n([^\n]+(?:\n[^\n]+)*?)(?=...)`, returning the
three groups and the remaining suffix after the match end. -/
def tryBadgeAt (l : List Char) : Option ((List Char × List Char × List Char) × List Char) :=
  if headingLit.isPrefixOf l then
    let r0 := l.drop headingLit.length
    let nm := r0.takeWhile (fun c => c ≠ '\n')
    if nm = [] then none
    else
      let r1 := r0.drop nm.length
      if List.isPrefixOf ['\n', '\n'] r1 then
        let r2 := r1.drop 2
        let cat := r2.takeWhile (fun c => c ≠ '\n')
        if cat = [] then none
        else
          match r2.drop cat.length with
          | '\n' :: r4 =>
            let d0 := r4.takeWhile (fun c => c ≠ '\n')
            if d0 = [] then none
            else
              match descExtendAux (r4.drop d0.length).length d0 (r4.drop d0.length) with
              | some (desc, rest) => some ((nm, cat, desc), rest)
              | none => none
          | _ => none
      else none
  else none

/-- `re.findall` of the badge-block pattern: non-overlapping leftmost
matches; fuelled by the input length (every match consumes at least one
character). -/
def badgeFindallAux : Nat → List Char → List (List Char × List Char × List Char)
  | 0, _ => []
  | _f + 1, [] => []
  | f + 1, c :: rest =>
    match tryBadgeAt (c :: rest) with
    | some (m, remaining) => m :: badgeFindallAux f remaining
    | none => badgeFindallAux f rest

/-- All badge-block matches of the bounded badge section of `content`
(empty when the section marker is absent). -/
def badgeMatchesOf (content : List Char) : List (List Char × List Char × List Char) :=
  match badgeSectionOf content with
  | none => []
  | some sect => badgeFindallAux sect.length sect

/-- The quality-assigning loop of `extract_individual_badges`: walk the
matches in document order with a running index, stop (`break`) once the
index reaches `total_badges`, and assign the tier by the cumulative
count thresholds. -/
def assignBadges (bi : BadgeInfo) : Nat → List (List Char × List Char × List Char) → List Badge
  | _, [] => []
  | i, (nm, cat, desc) :: rest =>
    if bi.total_badges ≤ i then []
    else
      { name := pyStrip nm
        quality :=
          if i < bi.legendary_badges then "Legendary".toList
          else if i < bi.legendary_badges + bi.hof_badges then "Hall of Fame".toList
          else if i < bi.legendary_badges + bi.hof_badges + bi.gold_badges then "Gold".toList
          else if i < bi.legendary_badges + bi.hof_badges + bi.gold_badges
                        + bi.silver_badges then "Silver".toList
          else if i < bi.legendary_badges + bi.hof_badges + bi.gold_badges
                        + bi.silver_badges + bi.bronze_badges then "Bronze".toList
          else "Unknown".toList
        category := pyStrip cat
        description := pyStrip (collapseNewlines desc) } :: assignBadges bi (i + 1) rest

/-- `extract_individual_badges(content, badge_info)`.  Returns `[]` when
the `[NBA 2K25 Badges]` marker is absent; otherwise matches badge blocks
inside the bounded section and assigns tiers positionally.  (The source
computes `badge_matches` twice — `badge_pattern` then `badge_pattern_v2`
— and only the second assignment survives, so only the v2 pattern is
embedded.) -/
def extract_individual_badges (content : List Char) (bi : BadgeInfo) : List Badge :=
  match badgeSectionOf content with
  | none => []
  | some sect => assignBadges bi 0 (badgeFindallAux sect.length sect)

/-- `extract_badge_info_from_markdown(content)`: the five tier counts
come from independent `<tier>-sum.png)\s*(\d+)` image-pattern searches
(count 0 when absent), `total_badges` is their sum, the category
breakdown comes from `Category (\d+)` searches, and the individual badge
list is produced last from the counts. -/
def extract_badge_info_from_markdown (content : List Char) : BadgeInfo :=
  let legendary := (scanFor (tryCountAt legendarySumLit) content).getD 0
  let hof := (scanFor (tryCountAt hofSumLit) content).getD 0
  let gold := (scanFor (tryCountAt goldSumLit) content).getD 0
  let silver := (scanFor (tryCountAt silverSumLit) content).getD 0
  let bronze := (scanFor (tryCountAt bronzeSumLit) content).getD 0
  let breakdown := badgeCategories.foldl
    (fun acc cat =>
      match scanFor (tryParenCountAt (cat ++ " (".toList)) content with
      | some n => acc ++ [(cat, n)]
      | none => acc) []
  let bi : BadgeInfo :=
    { total_badges := legendary + hof + gold + silver + bronze
      hof_badges := hof
      gold_badges := gold
      silver_badges := silver
      bronze_badges := bronze
      legendary_badges := legendary
      badge_breakdown := breakdown
      individual_badges := [] }
  { bi with individual_badges := extract_individual_badges content bi }

/-! ### Attribute tree (`extract_attributes_from_markdown`,
`extract_sub_attributes`) -/

/-- The six attribute section names searched by the source. -/
def attributeSections : List (List Char) :=
  ["Outside Scoring".toList, "Inside Scoring".toList, "Defense".toList,
   "Athleticism".toList, "Playmaking".toList, "Rebounding".toList]

/-- Skip the optional signed modifier `(?:[+-]\d+)?` greedily: consume a
sign followed by a maximal digit run when present.  (When present but
followed by a failing continuation, dropping it exposes the sign
character, which can never match the `' '` literal or a character class
used after it, so greedy consumption is exact.) -/
def skipModifier (l : List Char) : List Char :=
  match l with
  | c :: d :: rest =>
    if (c = '+' || c = '-') && d.isDigit then (d :: rest).dropWhile Char.isDigit
    else l
  | _ => l

/-- The text of the optional signed modifier at the head of `l` (empty
when absent). -/
def modifierOf (l : List Char) : List Char :=
  match l with
  | c :: d :: rest =>
    if (c = '+' || c = '-') && d.isDigit then c :: (d :: rest).takeWhile Char.isDigit
    else []
  | _ => []

/-- Positional matcher for the category-heading pattern
`#### (\d+)(?:[+-]\d+)? SECTION`; yields the captured rating and the
suffix after the match end (`match.end()`). -/
def tryAttrHeadAt (sect : List Char) (l : List Char) : Option (Nat × List Char) :=
  if headingLit.isPrefixOf l then
    let r0 := l.drop headingLit.length
    let ds := r0.takeWhile Char.isDigit
    if ds = [] then none
    else
      let r2 := skipModifier (r0.drop ds.length)
      if List.isPrefixOf (' ' :: sect) r2 then
        some (digitsToNat ds, r2.drop (sect.length + 1))
      else none
  else none

/-- Character class `[A-Za-z\s]` of the next-section pattern. -/
def isSecClassCh (c : Char) : Bool :=
  ('A' ≤ c && c ≤ 'Z') || ('a' ≤ c && c ≤ 'z') || pyIsSpace c

/-- Positional test for the bounding pattern
`#### \d+(?:[+-]\d+)? [A-Za-z\s]+` (only the match start is used by the
source, as the sub-attribute span's end). -/
def tryNextSecAt (l : List Char) : Bool :=
  if headingLit.isPrefixOf l then
    let r0 := l.drop headingLit.length
    let ds := r0.takeWhile Char.isDigit
    if ds = [] then false
    else
      match skipModifier (r0.drop ds.length) with
      | ' ' :: c :: _ => isSecClassCh c
      | _ => false
  else false

/-- Resolve `\s+([^\n\r]+)` after the numeric token: `k` counts down from
the maximal whitespace-run length (greedy `\s+`, backtracking one
whitespace character at a time); the first `k ≥ 1` whose following
character exists and is not a line break wins, and the group takes the
maximal `[^\n\r]` run from there.  Returns the group and the remaining
suffix. -/
def subAttrTail : Nat → List Char → Option (List Char × List Char)
  | 0, _ => none
  | k + 1, l =>
    match (l.drop (k + 1)).head? with
    | some c =>
      if notNL c then
        some ((l.drop (k + 1)).takeWhile notNL,
              l.drop (k + 1 + ((l.drop (k + 1)).takeWhile notNL).length))
      else subAttrTail k l
    | none => subAttrTail k l

/-- Positional matcher for the sub-attribute list-item pattern
`\*\s*(\d+(?:[+-]\d+)?)\s+([^\n\r]+)`; yields the raw numeric token
(group 1), the name text (group 2), and the suffix after the match
end. -/
def subAttrTryAt (l : List Char) : Option ((List Char × List Char) × List Char) :=
  match l with
  | '*' :: r0 =>
    let r1 := r0.dropWhile pyIsSpace
    let ds := r1.takeWhile Char.isDigit
    if ds = [] then none
    else
      let r2 := r1.drop ds.length
      let md := modifierOf r2
      let r3 := r2.drop md.length
      match subAttrTail (r3.takeWhile pyIsSpace).length r3 with
      | some (g2, rem) => some ((ds ++ md, g2), rem)
      | none => none
  | _ => none

/-- `re.findall` of the sub-attribute pattern, fuelled by the input
length. -/
def subAttrFindallAux : Nat → List Char → List (List Char × List Char)
  | 0, _ => []
  | _f + 1, [] => []
  | f + 1, c :: rest =>
    match subAttrTryAt (c :: rest) with
    | some (m, remaining) => m :: subAttrFindallAux f remaining
    | none => subAttrFindallAux f rest

/-- Insertion-ordered dictionary write `d[k] = v`: overwrite in place
when the key exists, append otherwise (Python `dict` semantics). -/
def assocInsert (m : List (List Char × SubAttr)) (k : List Char) (v : SubAttr) :
    List (List Char × SubAttr) :=
  if m.any (fun p => p.1 = k) then m.map (fun p => if p.1 = k then (k, v) else p)
  else m ++ [(k, v)]

/-- The first digit run of `s` — models
`int(re.search(r'(\d+)', value_str).group(1))`. -/
def firstDigitRun (l : List Char) : List Char :=
  (l.dropWhile (fun c => !c.isDigit)).takeWhile Char.isDigit

/-- The dictionary entry built for one sub-attribute match: the base
value is the first integer of the raw token (`base_value`), the token is
kept verbatim (`raw_value`). -/
def subAttrEntry (m : List Char × List Char) : SubAttr :=
  { value := digitsToNat (firstDigitRun m.1), raw_value := m.1 }

/-- The `for match in matches` loop of `extract_sub_attributes`. -/
def subAttrDictAux (acc : List (List Char × SubAttr)) :
    List (List Char × List Char) → List (List Char × SubAttr)
  | [] => acc
  | m :: rest => subAttrDictAux (assocInsert acc (pyStrip m.2) (subAttrEntry m)) rest

/-- `extract_sub_attributes(content, section_name)`: locate the category
heading, bound the span at the next heading-shaped token (or document
end), and collect every `\*\s*(\d+(?:[+-]\d+)?)\s+([^\n\r]+)` list item
into an insertion-ordered dictionary, storing the leading numeral as
`value` and the full numeric token as `raw_value`. -/
def extract_sub_attributes (content sect : List Char) : List (List Char × SubAttr) :=
  match scanFor (tryAttrHeadAt sect) content with
  | none => []
  | some (_rating, remaining) =>
    let span :=
      match firstMatchIdx tryNextSecAt remaining with
      | some j => remaining.take j
      | none => remaining
    subAttrDictAux [] (subAttrFindallAux span.length span)

/-- `extract_attributes_from_markdown(content)`: for each of the six
known section names, search for its rated heading; when found, record the
leading integer as the category rating (any signed modifier ignored)
together with the section's sub-attributes. -/
def extract_attributes_from_markdown (content : List Char) : List (List Char × AttrGroup) :=
  attributeSections.foldl
    (fun acc sect =>
      match scanFor (tryAttrHeadAt sect) content with
      | some (rating, _) =>
        acc ++ [(sect, { rating := rating
                         sub_attributes := extract_sub_attributes content sect })]
      | none => acc) []

/-! ### Player details (`extract_player_details_from_markdown`) -/

/-- Positional matcher for `LIT\s*\[([^\]]+)\]` (position/team). -/
def tryBracketAt (lit : List Char) (l : List Char) : Option (List Char) :=
  if lit.isPrefixOf l then
    match (l.drop lit.length).dropWhile pyIsSpace with
    | '[' :: r1 =>
      let inner := r1.takeWhile (fun c => c ≠ ']')
      if inner = [] then none
      else if (r1.drop inner.length).head? = some ']' then some inner
      else none
    | _ => none
  else none

/-- Resolve `\s*([^\n\r]+)` after a detail label: like `subAttrTail` but
`\s*` also admits zero consumed characters. -/
def lineTail : Nat → List Char → Option (List Char)
  | 0, l =>
    match l.head? with
    | some c => if notNL c then some (l.takeWhile notNL) else none
    | none => none
  | k + 1, l =>
    match (l.drop (k + 1)).head? with
    | some c =>
      if notNL c then some ((l.drop (k + 1)).takeWhile notNL)
      else lineTail k l
    | none => lineTail k l

/-- Positional matcher for `LIT\s*([^\n\r]+)` (height/weight/wingspan/
archetype). -/
def tryLineAt (lit : List Char) (l : List Char) : Option (List Char) :=
  if lit.isPrefixOf l then
    let r := l.drop lit.length
    lineTail (r.takeWhile pyIsSpace).length r
  else none

/-- `extract_player_details_from_markdown(content)`: six independent
optional single-pattern lookups; absent labels are omitted from the
mapping. -/
def extract_player_details_from_markdown (content : List Char) : List (List Char × List Char) :=
  let step (acc : List (List Char × List Char)) (key : List Char)
      (r : Option (List Char)) : List (List Char × List Char) :=
    match r with
    | some v => acc ++ [(key, pyStrip v)]
    | none => acc
  let d : List (List Char × List Char) := []
  let d := step d "position".toList (scanFor (tryBracketAt "Position:".toList) content)
  let d := step d "team".toList (scanFor (tryBracketAt "Team:".toList) content)
  let d := step d "height".toList (scanFor (tryLineAt "Height:".toList) content)
  let d := step d "weight".toList (scanFor (tryLineAt "Weight:".toList) content)
  let d := step d "wingspan".toList (scanFor (tryLineAt "Wingspan:".toList) content)
  let d := step d "archetype".toList (scanFor (tryLineAt "Archetype:".toList) content)
  d

/-! ### Page parsing (`parse_player_page`) and search (`search_player`) -/

def titleMarker : List Char := "Title:".toList
def annotLit : List Char := " NBA 2K25 Rating (Current".toList
def ratingPhrase : List Char := "Overall 2K Rating of".toList

/-- The title line: `html_content.split("Title:")[1].split("\n")[0]
.strip()` — the segment between the first and second occurrence of the
marker (or the rest of the document when the marker occurs once), cut at
the first newline and stripped; `none` when the marker is absent. -/
def titleLineOf (content : List Char) : Option (List Char) :=
  match firstIdx titleMarker content with
  | none => none
  | some n =>
    let after := content.drop (n + titleMarker.length)
    let seg :=
      match firstIdx titleMarker after with
      | some j => after.take j
      | none => after
    some (pyStrip (seg.takeWhile (fun c => c ≠ '\n')))

/-- The extracted player name: the title line with every occurrence of
the rating annotation and every `)` character removed and stripped, or
the sentinel when the marker is absent. -/
def extractTitleName (content : List Char) : List Char :=
  match titleLineOf content with
  | none => "Unknown Player".toList
  | some line => pyStrip (pyReplace [')'] [] (pyReplace annotLit [] line))

/-- Positional matcher for `LIT(\d+)` with no intervening whitespace
(used for `Overall 2K Rating of (\d+)` with the trailing space folded
into the literal). -/
def tryLitDigitsAt (lit : List Char) (l : List Char) : Option Nat :=
  if lit.isPrefixOf l then
    let ds := (l.drop lit.length).takeWhile Char.isDigit
    if ds = [] then none else some (digitsToNat ds)
  else none

/-- The overall rating: guarded by the `in` containment test, then the
first integer following the fixed phrase; `none` when absent. -/
def extractOverall (content : List Char) : Option Nat :=
  if containsSub ratingPhrase content then
    scanFor (tryLitDigitsAt (ratingPhrase ++ [' '])) content
  else none

/-- `parse_player_page(html_content, url)`.  Every extraction step of the
source is total over an in-memory string (the surrounding `try/except`
can only fire on exceptions none of these pure steps raise), so the
embedding always returns a record. -/
def parse_player_page (content url : List Char) : PlayerData :=
  { name := extractTitleName content
    url := url
    overall_rating := extractOverall content
    badge_info := extract_badge_info_from_markdown content
    attributes := extract_attributes_from_markdown content
    player_details := extract_player_details_from_markdown content
    raw_content :=
      if 1000 < content.length then content.take 1000 ++ "...".toList else content }

def baseUrl : List Char := "https://www.2kratings.com".toList

/-- The ordered candidate URLs of `search_player`: normalized slug
(lowercase, spaces to hyphens) at the root, then `/player/`-prefixed,
then `/players/`-prefixed. -/
def candidateUrls (player_name : List Char) : List (List Char) :=
  let url_name := (player_name.map Char.toLower).map (fun c => if c = ' ' then '-' else c)
  [baseUrl ++ '/' :: url_name,
   baseUrl ++ "/player/".toList ++ url_name,
   baseUrl ++ "/players/".toList ++ url_name]

/-- The candidate loop of `search_player`: try each URL in order; a
failed fetch (`None`) or empty document is skipped; a non-empty document
is parsed and returned at once (the parse is total, so the source's
`if player_data:` test always passes). -/
def searchLoop (fetch : List Char → Option (List Char)) : List (List Char) → List PlayerData
  | [] => []
  | url :: rest =>
    match fetch url with
    | some html => if html = [] then searchLoop fetch rest else [parse_player_page html url]
    | none => searchLoop fetch rest

/-- `search_player(player_name)`, with the network boundary abstracted as
the function `fetch` (what `scrape_url` returns for each URL: `none` for
a failed fetch, the document text otherwise). -/
def search_player (fetch : List Char → Option (List Char)) (player_name : List Char) :
    List PlayerData :=
  searchLoop fetch (candidateUrls player_name)

/-- The positional tier-assignment rule as a standalone function of the
running index (the cumulative-threshold chain of the loop body). -/
def tierChain (bi : BadgeInfo) (i : Nat) : List Char :=
  if i < bi.legendary_badges then "Legendary".toList
  else if i < bi.legendary_badges + bi.hof_badges then "Hall of Fame".toList
  else if i < bi.legendary_badges + bi.hof_badges + bi.gold_badges then "Gold".toList
  else if i < bi.legendary_badges + bi.hof_badges + bi.gold_badges
                + bi.silver_badges then "Silver".toList
  else if i < bi.legendary_badges + bi.hof_badges + bi.gold_badges
                + bi.silver_badges + bi.bronze_badges then "Bronze".toList
  else "Unknown".toList

/-- The five real tier labels. -/
def knownTiers : List (List Char) :=
  ["Legendary".toList, "Hall of Fame".toList, "Gold".toList, "Silver".toList,
   "Bronze".toList]

/-! ### Concrete inputs used by witnesses and counterexamples -/

def docC2 : List Char :=
  ("![](legendary-sum.png) 1\n[NBA 2K25 Badges]\n\n" ++
   "#### A1\n\nC1\nD1 line\n\n#### A2\n\nC2\nD2 line").toList

def biC2 : BadgeInfo := extract_badge_info_from_markdown docC2

def docC3 : List Char :=
  ("![](legendary-sum.png) 1\n[NBA 2K25 Badges]\n\n" ++
   "#### Sniper\n\nOutside Scoring\nDeadly from deep").toList

def biC3 : BadgeInfo := extract_badge_info_from_markdown docC3

def docC4 : List Char := "#### 90 Defense\n*   98+1 Mid-Range Shot".toList

def defenseSect : List Char := "Defense".toList

def subC4entry : List Char × SubAttr :=
  ("Mid-Range Shot".toList, { value := 98, raw_value := "98+1".toList })

def candC5 : List Char := "https://www.2kratings.com/lebron-james".toList

def fetchC5 : List Char → Option (List Char) :=
  fun u => if u = candC5 then some "junk".toList else none

def nameC5 : List Char := "Lebron James".toList

def fetchC5w : List Char → Option (List Char) := fun _ => some "Title: X\n".toList

def docC6 : List Char := "Title: Magic (Johnson) Jr\nbody".toList

def urlC6 : List Char := "u".toList

def docC6w : List Char := "Title: Kobe Bryant\nrest".toList

def docC7 : List Char := "![](gold-sum.png) 5 and no badge marker here".toList

def docC8 : List Char := "#### 91-1 Outside Scoring\n*   99 Close Shot".toList

def docC10 : List Char :=
  "![](hof-sum.png) 1\n[NBA 2K25 Badges]\n\n#### Clamps\n\nDefense\nLockdown defender".toList

def badgeC10 : Badge :=
  { name := "Clamps".toList, quality := "Hall of Fame".toList, category := "Defense".toList,
    description := "Lockdown defender".toList }

/-! ### Helper lemmas -/

theorem length_dropWhile_le' (p : Char → Bool) (l : List Char) :
    (l.dropWhile p).length ≤ l.length := by
  induction l with
  | nil => simp
  | cons c rest ih =>
    rw [List.dropWhile]
    cases p c with
    | true => exact Nat.le_succ_of_le ih
    | false => exact Nat.le_refl _

theorem takeWhile_head_pred {p : Char → Bool} {l : List Char} {c : Char} {t : List Char}
    (h : l.takeWhile p = c :: t) : p c = true := by
  induction l with
  | nil => simp [List.takeWhile] at h
  | cons a rest _ =>
    rw [List.takeWhile_cons] at h
    by_cases hp : p a = true
    · rw [if_pos hp] at h
      cases h
      exact hp
    · rw [if_neg hp] at h
      cases h

theorem dropWhile_eq_self_of_head {p : Char → Bool} {l : List Char} {c : Char}
    (h1 : l.head? = some c) (h2 : p c = false) : l.dropWhile p = l := by
  cases l with
  | nil => cases h1
  | cons a rest =>
    have : a = c := by cases h1; rfl
    subst this
    rw [List.dropWhile_cons, if_neg (by simp [h2])]

theorem head_pred_of_dropWhile_eq_self {p : Char → Bool} {l : List Char} {c : Char} {t : List Char}
    (h : l.dropWhile p = l) (he : l = c :: t) : p c = false := by
  subst he
  by_cases hp : p c = true
  · rw [List.dropWhile_cons, if_pos hp] at h
    have hlen : (t.dropWhile p).length ≤ t.length := length_dropWhile_le' p t
    rw [h] at hlen
    simp at hlen
  · simpa using hp

theorem dropWhile_dropWhile (p : Char → Bool) (l : List Char) :
    (l.dropWhile p).dropWhile p = l.dropWhile p := by
  induction l with
  | nil => simp
  | cons c rest ih =>
    rw [List.dropWhile_cons]
    by_cases hp : p c = true
    · rw [if_pos hp]
      exact ih
    · rw [if_neg hp, List.dropWhile_cons, if_neg hp]

theorem getLast?_dropWhile (p : Char → Bool) (l : List Char) (h : l.dropWhile p ≠ []) :
    (l.dropWhile p).getLast? = l.getLast? := by
  induction l with
  | nil => simp at h
  | cons c rest ih =>
    rw [List.dropWhile_cons] at h ⊢
    by_cases hp : p c = true
    · rw [if_pos hp] at h ⊢
      rw [ih h]
      have hr : rest ≠ [] := by
        intro he
        rw [he] at h
        simp [List.dropWhile] at h
      cases rest with
      | nil => exact absurd rfl hr
      | cons d t => rw [List.getLast?_cons_cons]
    · rw [if_neg hp]

theorem pyStrip_idem (l : List Char) : pyStrip (pyStrip l) = pyStrip l := by
  unfold pyStrip
  set p := pyIsSpace with hp
  set d := l.dropWhile p with hd
  set u := d.reverse.dropWhile p with hu
  have hA : u.reverse.dropWhile p = u.reverse := by
    cases hru : u.reverse with
    | nil => simp
    | cons c t =>
      have hu_ne : u ≠ [] := by
        intro he; rw [he] at hru; cases hru
      have hhead : u.reverse.head? = some c := by rw [hru]; rfl
      have hc : p c = false := by
        have h1 : u.reverse.head? = u.getLast? := List.head?_reverse u
        have h2 : u.getLast? = d.reverse.getLast? := by
          rw [hu]; exact getLast?_dropWhile p d.reverse (hu ▸ hu_ne)
        have h3 : d.reverse.getLast? = d.head? := List.getLast?_reverse d
        have hdc : d.head? = some c := by rw [← h3, ← h2, ← h1, hhead]
        have hd_ne : d ≠ [] := by
          intro he
          rw [he] at hdc
          cases hdc
        cases hde : d with
        | nil => exact absurd hde hd_ne
        | cons a t2 =>
          have ha : a = c := by
            rw [hde] at hdc
            cases hdc
            rfl
          subst ha
          have hds : d.dropWhile p = d := by rw [hd]; exact dropWhile_dropWhile p l
          exact head_pred_of_dropWhile_eq_self hds hde
      rw [← hru]
      exact dropWhile_eq_self_of_head hhead hc
  rw [hA, List.reverse_reverse]
  have : u.dropWhile p = u := by rw [hu]; exact dropWhile_dropWhile p d.reverse
  rw [this]

theorem firstIdx_cons_none {sub : List Char} {c : Char} {rest : List Char}
    (h : firstIdx sub (c :: rest) = none) :
    sub.isPrefixOf (c :: rest) = false ∧ firstIdx sub rest = none := by
  rw [firstIdx] at h
  cases hp : List.isPrefixOf sub (c :: rest) with
  | true => rw [if_pos hp] at h; cases h
  | false =>
    rw [if_neg (by simp [hp])] at h
    refine ⟨rfl, ?_⟩
    cases hr : firstIdx sub rest with
    | none => rfl
    | some n => rw [hr] at h; cases h

theorem pyReplaceAux_no_occ (old new : List Char) :
    ∀ (f : Nat) (l : List Char), firstIdx old l = none → pyReplaceAux old new f l = l := by
  intro f
  induction f with
  | zero => intro l _; rfl
  | succ f ih =>
    intro l h
    cases l with
    | nil => rfl
    | cons c rest =>
      obtain ⟨hp, hr⟩ := firstIdx_cons_none h
      rw [pyReplaceAux, if_neg (by simp [hp]), ih rest hr]

theorem pyReplace_no_occ {old : List Char} (new : List Char) {l : List Char}
    (h : firstIdx old l = none) : pyReplace old new l = l :=
  pyReplaceAux_no_occ old new l.length l h

theorem firstIdx_singleton_none {c : Char} {l : List Char} (h : c ∉ l) :
    firstIdx [c] l = none := by
  induction l with
  | nil => rfl
  | cons a rest ih =>
    have hne : c ≠ a := fun he => h (he ▸ List.mem_cons_self a rest)
    have hpre : List.isPrefixOf [c] (a :: rest) = false := by
      simp [List.isPrefixOf]
      exact fun he => absurd he hne
    rw [firstIdx, if_neg (by simp [hpre]), ih (fun hm => h (List.mem_cons_of_mem a hm))]
    rfl

theorem extract_individual_badges_none {content : List Char} (bi : BadgeInfo)
    (h : badgeSectionOf content = none) : extract_individual_badges content bi = [] := by
  unfold extract_individual_badges
  rw [h]

theorem extract_individual_badges_some {content sect : List Char} (bi : BadgeInfo)
    (h : badgeSectionOf content = some sect) :
    extract_individual_badges content bi =
      assignBadges bi 0 (badgeFindallAux sect.length sect) := by
  unfold extract_individual_badges
  rw [h]

theorem badgeMatchesOf_none {content : List Char}
    (h : badgeSectionOf content = none) : badgeMatchesOf content = [] := by
  unfold badgeMatchesOf
  rw [h]

theorem badgeMatchesOf_some {content sect : List Char}
    (h : badgeSectionOf content = some sect) :
    badgeMatchesOf content = badgeFindallAux sect.length sect := by
  unfold badgeMatchesOf
  rw [h]

theorem assignBadges_length (bi : BadgeInfo) :
    ∀ (ms : List (List Char × List Char × List Char)) (i : Nat),
      (assignBadges bi i ms).length = min ms.length (bi.total_badges - i) := by
  intro ms
  induction ms with
  | nil => intro i; simp [assignBadges]
  | cons m rest ih =>
    intro i
    obtain ⟨nm, cat, desc⟩ := m
    by_cases h : bi.total_badges ≤ i
    · simp only [assignBadges, if_pos h, List.length_nil, List.length_cons]
      omega
    · simp only [assignBadges, if_neg h, List.length_cons, ih (i + 1)]
      omega

theorem assignBadges_getD_quality (bi : BadgeInfo) :
    ∀ (ms : List (List Char × List Char × List Char)) (j i : Nat),
      i < (assignBadges bi j ms).length →
      ((assignBadges bi j ms).getD i defaultBadge).quality = tierChain bi (j + i) := by
  intro ms
  induction ms with
  | nil => intro j i h; simp [assignBadges] at h
  | cons m rest ih =>
    intro j i h
    obtain ⟨nm, cat, desc⟩ := m
    by_cases hj : bi.total_badges ≤ j
    · simp [assignBadges, if_pos hj] at h
    · simp only [assignBadges, if_neg hj] at h ⊢
      cases i with
      | zero =>
        simp only [List.getD_cons_zero, Nat.add_zero]
        rfl
      | succ i2 =>
        simp only [List.length_cons] at h
        have h2 : i2 < (assignBadges bi (j + 1) rest).length := by omega
        simp only [List.getD_cons_succ]
        rw [ih (j + 1) i2 h2]
        congr 1
        omega

theorem tierChain_known {bi : BadgeInfo} {i : Nat}
    (h : i < bi.legendary_badges + bi.hof_badges + bi.gold_badges + bi.silver_badges +
         bi.bronze_badges) : tierChain bi i ∈ knownTiers := by
  unfold tierChain
  by_cases h1 : i < bi.legendary_badges
  · rw [if_pos h1]; decide
  · rw [if_neg h1]
    by_cases h2 : i < bi.legendary_badges + bi.hof_badges
    · rw [if_pos h2]; decide
    · rw [if_neg h2]
      by_cases h3 : i < bi.legendary_badges + bi.hof_badges + bi.gold_badges
      · rw [if_pos h3]; decide
      · rw [if_neg h3]
        by_cases h4 : i < bi.legendary_badges + bi.hof_badges + bi.gold_badges
                          + bi.silver_badges
        · rw [if_pos h4]; decide
        · rw [if_neg h4, if_pos (by omega)]; decide

theorem assignBadges_quality_known (bi : BadgeInfo)
    (hle : bi.total_badges ≤ bi.legendary_badges + bi.hof_badges + bi.gold_badges +
           bi.silver_badges + bi.bronze_badges) :
    ∀ (ms : List (List Char × List Char × List Char)) (j : Nat) (b : Badge),
      b ∈ assignBadges bi j ms → b.quality ∈ knownTiers := by
  intro ms
  induction ms with
  | nil => intro j b h; simp [assignBadges] at h
  | cons m rest ih =>
    intro j b h
    obtain ⟨nm, cat, desc⟩ := m
    by_cases hj : bi.total_badges ≤ j
    · simp [assignBadges, if_pos hj] at h
    · simp only [assignBadges, if_neg hj] at h
      rcases List.mem_cons.mp h with he | hm
      · subst he
        exact tierChain_known (by omega)
      · exact ih (j + 1) b hm

/-- C1: for every input markdown document, the badge summary returned by
`extract_badge_info_from_markdown` satisfies `total_badges ==
legendary_badges + hof_badges + gold_badges + silver_badges +
bronze_badges`; the total is computed from the five tier counts and never
parsed independently from the document. -/
theorem badge_total_is_sum_of_tiers (content : List Char) :
    (extract_badge_info_from_markdown content).total_badges =
      (extract_badge_info_from_markdown content).legendary_badges +
      (extract_badge_info_from_markdown content).hof_badges +
      (extract_badge_info_from_markdown content).gold_badges +
      (extract_badge_info_from_markdown content).silver_badges +
      (extract_badge_info_from_markdown content).bronze_badges := rfl

/-- C2: for every input document the individual-badge list returned by
`extract_individual_badges` has length at most `total_badges`; when the
document contains at least `total_badges` badge-heading matches,
extraction stops at exactly `total_badges` entries and discards the
rest; re-running extraction on the same text yields the identical list
(the function is pure). -/
theorem individual_badges_truncated (content : List Char) (bi : BadgeInfo) :
    (extract_individual_badges content bi).length ≤ bi.total_badges ∧
    (bi.total_badges ≤ (badgeMatchesOf content).length →
      (extract_individual_badges content bi).length = bi.total_badges) ∧
    extract_individual_badges content bi = extract_individual_badges content bi := by
  cases hsec : badgeSectionOf content with
  | none =>
    rw [extract_individual_badges_none bi hsec, badgeMatchesOf_none hsec]
    refine ⟨Nat.zero_le _, ?_, rfl⟩
    intro h
    simp at h ⊢
    omega
  | some sect =>
    rw [extract_individual_badges_some bi hsec, badgeMatchesOf_some hsec,
      assignBadges_length]
    refine ⟨by omega, fun h => by omega, rfl⟩

/-- C2 witness: on a concrete document with two badge-heading matches but
a single counted badge, extraction stops at exactly one entry. -/
theorem individual_badges_truncated_witness :
    (extract_individual_badges docC2 biC2).length = biC2.total_badges :=
  (individual_badges_truncated docC2 biC2).2.1 (by decide)

/-- C3: for every matched badge at zero-based document-order index `i`
(within the returned list), the assigned tier is determined positionally
by cumulative tier-count thresholds — "Legendary" below the legendary
count, then "Hall of Fame", "Gold", "Silver", "Bronze" at the successive
cumulative sums, and "Unknown" for any index at or beyond the sum of all
five tier counts. -/
theorem badge_tier_positional (content : List Char) (bi : BadgeInfo) (i : Nat)
    (h : i < (extract_individual_badges content bi).length) :
    ((extract_individual_badges content bi).getD i defaultBadge).quality =
      (if i < bi.legendary_badges then "Legendary".toList
       else if i < bi.legendary_badges + bi.hof_badges then "Hall of Fame".toList
       else if i < bi.legendary_badges + bi.hof_badges + bi.gold_badges then "Gold".toList
       else if i < bi.legendary_badges + bi.hof_badges + bi.gold_badges
                     + bi.silver_badges then "Silver".toList
       else if i < bi.legendary_badges + bi.hof_badges + bi.gold_badges
                     + bi.silver_badges + bi.bronze_badges then "Bronze".toList
       else "Unknown".toList) := by
  cases hsec : badgeSectionOf content with
  | none =>
    rw [extract_individual_badges_none bi hsec] at h
    simp at h
  | some sect =>
    rw [extract_individual_badges_some bi hsec] at h ⊢
    have hq := assignBadges_getD_quality bi (badgeFindallAux sect.length sect) 0 i h
    rw [Nat.zero_add] at hq
    rw [hq]
    rfl

/-- C3 witness: the single badge of a concrete document whose legendary
count is 1 is assigned tier "Legendary". -/
theorem badge_tier_positional_witness :
    ((extract_individual_badges docC3 biC3).getD 0 defaultBadge).quality =
      "Legendary".toList := by
  have h := badge_tier_positional docC3 biC3 0 (by decide)
  rw [h]
  decide

/-- C10: no badge in the individual-badge list returned by
`extract_badge_info_from_markdown` ever has tier "Unknown": extraction
stops once the running index reaches `total_badges`, and `total_badges`
equals the sum of the five tier counts, so every returned badge's tier is
one of "Legendary", "Hall of Fame", "Gold", "Silver", "Bronze". -/
theorem no_unknown_tier (content : List Char) (b : Badge)
    (h : b ∈ (extract_badge_info_from_markdown content).individual_badges) :
    b.quality ∈ knownTiers ∧ b.quality ≠ "Unknown".toList := by
  simp only [extract_badge_info_from_markdown] at h
  have hmem : b.quality ∈ knownTiers := by
    cases hsec : badgeSectionOf content with
    | none =>
      rw [extract_individual_badges_none _ hsec] at h
      simp at h
    | some sect =>
      rw [extract_individual_badges_some _ hsec] at h
      exact assignBadges_quality_known _ (Nat.le_refl _) _ 0 b h
  refine ⟨hmem, ?_⟩
  intro he
  rw [he] at hmem
  revert hmem
  decide

/-- C10 witness: the single badge of a concrete document with one
hall-of-fame badge carries a known tier and not "Unknown". -/
theorem no_unknown_tier_witness :
    badgeC10.quality ≠ "Unknown".toList ∧
    badgeC10 ∈ (extract_badge_info_from_markdown docC10).individual_badges :=
  ⟨(no_unknown_tier docC10 badgeC10 (by decide)).2, by decide⟩

theorem subAttrTryAt_token {l : List Char} {m : List Char × List Char} {rem : List Char}
    (h : subAttrTryAt l = some (m, rem)) :
    ∃ c t, m.1 = c :: t ∧ c.isDigit = true := by
  unfold subAttrTryAt at h
  split at h
  · next r0 =>
    simp only [] at h
    split at h
    · cases h
    · next hds =>
      split at h
      · next g2 rem2 heq =>
        injection h with h1
        injection h1 with h2 h3
        cases hde : (r0.dropWhile pyIsSpace).takeWhile Char.isDigit with
        | nil => exact absurd hde hds
        | cons c t =>
          refine ⟨c, t ++ modifierOf (((r0.dropWhile pyIsSpace)).drop
            ((r0.dropWhile pyIsSpace).takeWhile Char.isDigit).length), ?_, ?_⟩
          · rw [← h2, hde]
            rfl
          · exact takeWhile_head_pred hde
      · cases h
  · cases h

theorem subAttrFindallAux_token :
    ∀ (f : Nat) (l : List Char) (m : List Char × List Char),
      m ∈ subAttrFindallAux f l → ∃ c t, m.1 = c :: t ∧ c.isDigit = true := by
  intro f
  induction f with
  | zero => intro l m h; simp [subAttrFindallAux] at h
  | succ f ih =>
    intro l m h
    cases l with
    | nil => simp [subAttrFindallAux] at h
    | cons c rest =>
      rw [subAttrFindallAux] at h
      split at h
      · next m2 remaining heq =>
        rcases List.mem_cons.mp h with he | hm
        · subst he
          exact subAttrTryAt_token heq
        · exact ih remaining m hm
      · exact ih rest m h

theorem subAttrEntry_good {m : List Char × List Char} {c : Char} {t : List Char}
    (h1 : m.1 = c :: t) (h2 : c.isDigit = true) :
    (subAttrEntry m).value = digitsToNat ((subAttrEntry m).raw_value.takeWhile Char.isDigit) ∧
    (subAttrEntry m).raw_value.takeWhile Char.isDigit ≠ [] := by
  unfold subAttrEntry firstDigitRun
  simp only []
  constructor
  · rw [h1, List.dropWhile_cons, if_neg (by simp [h2])]
  · rw [h1, List.takeWhile_cons, if_pos h2]
    simp

theorem mem_assocInsert {m : List (List Char × SubAttr)} {k : List Char} {v : SubAttr}
    {p : List Char × SubAttr} (h : p ∈ assocInsert m k v) : p ∈ m ∨ p = (k, v) := by
  unfold assocInsert at h
  split at h
  · rcases List.mem_map.mp h with ⟨q, hq, he⟩
    by_cases hk : q.1 = k
    · right
      rw [if_pos hk] at he
      exact he.symm
    · left
      rw [if_neg hk] at he
      exact he ▸ hq
  · rcases List.mem_append.mp h with h1 | h1
    · left
      exact h1
    · right
      simpa using h1

theorem subAttrDictAux_good (P : SubAttr → Prop) :
    ∀ (ms : List (List Char × List Char)) (acc : List (List Char × SubAttr)),
      (∀ q ∈ acc, P q.2) → (∀ m2 ∈ ms, P (subAttrEntry m2)) →
      ∀ p ∈ subAttrDictAux acc ms, P p.2 := by
  intro ms
  induction ms with
  | nil => intro acc hacc _ p hp; exact hacc p hp
  | cons m rest ih =>
    intro acc hacc hms p hp
    rw [subAttrDictAux] at hp
    refine ih _ ?_ (fun m2 hm2 => hms m2 (List.mem_cons_of_mem _ hm2)) p hp
    intro q hq
    rcases mem_assocInsert hq with h1 | h1
    · exact hacc q h1
    · rw [h1]
      exact hms m (List.mem_cons_self _ _)

/-- C4: every sub-attribute captured by `extract_sub_attributes` stores
an integer value equal to the leading numeral of the raw matched token
(any trailing signed modifier stripped, e.g. raw "98+1" has value 98),
and the raw token is retained verbatim alongside it in `raw_value`. -/
theorem sub_attribute_value_leading_numeral (content sect nm : List Char) (e : SubAttr)
    (h : (nm, e) ∈ extract_sub_attributes content sect) :
    e.value = digitsToNat (e.raw_value.takeWhile Char.isDigit) ∧
    e.raw_value.takeWhile Char.isDigit ≠ [] := by
  unfold extract_sub_attributes at h
  split at h
  · simp at h
  · exact subAttrDictAux_good
      (fun v => v.value = digitsToNat (v.raw_value.takeWhile Char.isDigit) ∧
                v.raw_value.takeWhile Char.isDigit ≠ [])
      _ [] (by simp)
      (fun m2 hm2 => by
        obtain ⟨c, t, h1, h2⟩ := subAttrFindallAux_token _ _ m2 hm2
        exact subAttrEntry_good h1 h2)
      (nm, e) h

/-- C4 witness: the concrete list item `*   98+1 Mid-Range Shot` is
captured with value 98 and raw token "98+1". -/
theorem sub_attribute_value_witness :
    subC4entry ∈ extract_sub_attributes docC4 defenseSect ∧
    subC4entry.2.value =
      digitsToNat (subC4entry.2.raw_value.takeWhile Char.isDigit) :=
  ⟨by decide,
   (sub_attribute_value_leading_numeral docC4 defenseSect subC4entry.1 subC4entry.2
     (by decide)).1⟩

/-- C7: when the badge-section start marker `[NBA 2K25 Badges]` is absent
from the document, the individual-badge list is empty while the five tier
counts keep exactly the values of the independent image-pattern searches
— badge-list extraction and tier-count extraction are decoupled. -/
theorem badge_marker_absent_decoupled (content : List Char)
    (h : firstIdx badgesSectionMarker content = none) :
    (extract_badge_info_from_markdown content).individual_badges = [] ∧
    (extract_badge_info_from_markdown content).legendary_badges =
      (scanFor (tryCountAt legendarySumLit) content).getD 0 ∧
    (extract_badge_info_from_markdown content).hof_badges =
      (scanFor (tryCountAt hofSumLit) content).getD 0 ∧
    (extract_badge_info_from_markdown content).gold_badges =
      (scanFor (tryCountAt goldSumLit) content).getD 0 ∧
    (extract_badge_info_from_markdown content).silver_badges =
      (scanFor (tryCountAt silverSumLit) content).getD 0 ∧
    (extract_badge_info_from_markdown content).bronze_badges =
      (scanFor (tryCountAt bronzeSumLit) content).getD 0 := by
  have hsec : badgeSectionOf content = none := by
    unfold badgeSectionOf
    rw [h]
  constructor
  · simp only [extract_badge_info_from_markdown]
    exact extract_individual_badges_none _ hsec
  · exact ⟨rfl, rfl, rfl, rfl, rfl⟩

/-- C7 witness: a concrete document with a gold tier-count image but no
badge-section marker keeps gold count 5 with an empty badge list. -/
theorem badge_marker_absent_witness :
    (extract_badge_info_from_markdown docC7).individual_badges = [] ∧
    (extract_badge_info_from_markdown docC7).gold_badges = 5 :=
  ⟨(badge_marker_absent_decoupled docC7 (by decide)).1, by decide⟩

/-- C9: when none of the three candidate URLs (root-level slug,
`/player/`-prefixed, `/players/`-prefixed) fetches successfully — every
fetch fails or returns empty content — `search_player` returns the empty
result after trying all candidates in order, and raises nothing (the
embedding is total). -/
theorem search_returns_empty_when_all_fetches_fail
    (fetch : List Char → Option (List Char)) (player_name : List Char)
    (h : ∀ u ∈ candidateUrls player_name, fetch u = none ∨ fetch u = some []) :
    search_player fetch player_name = [] := by
  obtain ⟨u1, u2, u3, hc⟩ : ∃ a b c2, candidateUrls player_name = [a, b, c2] :=
    ⟨_, _, _, rfl⟩
  have h1 := h u1 (by rw [hc]; exact List.mem_cons_self _ _)
  have h2 := h u2 (by rw [hc]; simp)
  have h3 := h u3 (by rw [hc]; simp)
  unfold search_player
  rw [hc]
  rcases h1 with h1 | h1 <;> rcases h2 with h2 | h2 <;> rcases h3 with h3 | h3 <;>
    simp [searchLoop, h1, h2, h3]

/-- C9 witness: a fetch that always fails makes the search return
empty. -/
theorem search_returns_empty_witness :
    search_player (fun _ => none) "Lebron James".toList = [] :=
  search_returns_empty_when_all_fetches_fail (fun _ => none) ("Lebron James".toList)
    (fun _ _ => Or.inl rfl)

/-- C5 counterexample: a successfully fetched non-empty document ("junk")
from which no identity, rating, attributes or badges are extractable is
still returned as a record by the search — the search does not continue
to the next candidate URL, contrary to the claim. -/
theorem search_returns_record_for_unusable_document :
    search_player fetchC5 nameC5 = [parse_player_page "junk".toList candC5] ∧
    (parse_player_page "junk".toList candC5).name = "Unknown Player".toList ∧
    (parse_player_page "junk".toList candC5).overall_rating = none ∧
    (parse_player_page "junk".toList candC5).attributes = [] ∧
    (parse_player_page "junk".toList candC5).badge_info.total_badges = 0 ∧
    (parse_player_page "junk".toList candC5).badge_info.individual_badges = [] := by
  refine ⟨by decide, by decide, by decide, by decide, by decide, by decide⟩

/-- C5 amended: for every fetch whose first candidate URL returns a
non-empty document, the search returns the parsed record of that document
at once — even when the document yields no identity, rating, attributes
or badges; only a failed or empty fetch moves the search to the next
candidate. -/
theorem search_returns_first_nonempty_fetch (fetch : List Char → Option (List Char))
    (player_name doc : List Char)
    (h1 : fetch ((candidateUrls player_name).getD 0 []) = some doc) (h2 : doc ≠ []) :
    search_player fetch player_name =
      [parse_player_page doc ((candidateUrls player_name).getD 0 [])] := by
  obtain ⟨u1, u2, u3, hc⟩ : ∃ a b c2, candidateUrls player_name = [a, b, c2] :=
    ⟨_, _, _, rfl⟩
  rw [hc] at h1 ⊢
  simp only [List.getD_cons_zero] at h1 ⊢
  unfold search_player
  rw [hc]
  simp [searchLoop, h1, h2]

/-- C5 amended witness: a fetch returning a tiny but non-empty document
for the first candidate makes the search return its parse directly. -/
theorem search_returns_first_witness :
    search_player fetchC5w "Ja Morant".toList =
      [parse_player_page "Title: X\n".toList
        ((candidateUrls "Ja Morant".toList).getD 0 [])] :=
  search_returns_first_nonempty_fetch fetchC5w ("Ja Morant".toList)
    ("Title: X\n".toList) rfl (by decide)

/-- C6 counterexample: on the title line "Magic (Johnson) Jr" — which
contains no rating-source annotation and whose parenthetical is not
trailing — the extracted name is "Magic (Johnson Jr": the `)` inside the
title is removed, so text elsewhere in the title is not preserved
unchanged. -/
theorem title_paren_not_preserved :
    (parse_player_page docC6 urlC6).name = "Magic (Johnson Jr".toList ∧
    (parse_player_page docC6 urlC6).name ≠ "Magic (Johnson) Jr".toList := by
  refine ⟨by decide, by decide⟩

/-- C6 amended: the extracted player name is the title line (text after
the first title marker, cut at the next line break or next marker,
stripped) with every occurrence of the rating-source annotation and every
`)` character removed — wherever they occur, not only as a trailing
suffix — and stripped again; when the marker is absent the name is the
sentinel "Unknown Player"; a title line containing neither the annotation
nor any `)` is returned unchanged. -/
theorem player_name_characterization (content url : List Char) :
    (titleLineOf content = none →
      (parse_player_page content url).name = "Unknown Player".toList) ∧
    (∀ line, titleLineOf content = some line →
      (parse_player_page content url).name =
        pyStrip (pyReplace [')'] [] (pyReplace annotLit [] line)) ∧
      (')' ∉ line → firstIdx annotLit line = none →
        (parse_player_page content url).name = line)) := by
  have hname : (parse_player_page content url).name = extractTitleName content := rfl
  constructor
  · intro h
    rw [hname]
    unfold extractTitleName
    rw [h]
  · intro line hline
    have hbase : (parse_player_page content url).name =
        pyStrip (pyReplace [')'] [] (pyReplace annotLit [] line)) := by
      rw [hname]
      unfold extractTitleName
      rw [hline]
    refine ⟨hbase, ?_⟩
    intro hp ha
    rw [hbase, pyReplace_no_occ [] ha,
      pyReplace_no_occ [] (firstIdx_singleton_none hp)]
    obtain ⟨x, hx⟩ : ∃ x, line = pyStrip x := by
      unfold titleLineOf at hline
      split at hline
      · cases hline
      · simp only [] at hline
        injection hline with h2
        exact ⟨_, h2.symm⟩
    rw [hx, pyStrip_idem]

/-- C6 amended witness: a clean title line without annotation or `)` is
extracted verbatim. -/
theorem player_name_characterization_witness :
    (parse_player_page docC6w "u".toList).name = "Kobe Bryant".toList :=
  ((player_name_characterization docC6w "u".toList).2 "Kobe Bryant".toList
    (by decide)).2 (by decide) (by decide)

/-- C8: on a document containing the heading `#### 91-1 Outside Scoring`
followed by the list item `*   99 Close Shot`, attribute extraction
produces an "Outside Scoring" entry with category rating 91 (the signed
modifier on the heading is ignored) and a single sub-attribute
"Close Shot" with value 99 and raw token "99". -/
theorem attribute_heading_with_modifier :
    extract_attributes_from_markdown docC8 =
      [("Outside Scoring".toList,
        { rating := 91,
          sub_attributes :=
            [("Close Shot".toList, { value := 99, raw_value := "99".toList })] })] := by
  decide
